import Mathlib

/-!
# goconvey-notify: HTTP control surface (`web/server/api/server.go`)

A shallow embedding of the request handlers of `HTTPServer` and of the pure
validators they call, followed by theorems about them.

Conventions of the embedding

* Go strings are modelled by Lean strings (sequences of runes).
* The file system is an explicit lookup from a path to
  absent / regular file / directory; `os.Stat` reads it.
* A send on the unbuffered `watcher` channel is recorded by appending the
  command to the list `watcherSent` (the watcher is assumed to be receiving).
* A run-time panic (method call on a nil interface value) is an explicit
  outcome of a handler, together with the effects performed before it.
-/

namespace Goconvey

/-! ## Environment -/

/-- What a path names in the file system. -/
inductive FileKind where
  | absent
  | regular
  | directory
  deriving DecidableEq, Repr

/-- The file system: a lookup from a path to what it names. -/
abbrev FileSystem := String → FileKind

/-- The part of `os.FileInfo` the server reads. -/
structure FileInfo where
  isDir : Bool
  deriving DecidableEq, Repr

/-- The error of a failed file-system call, with its message and whether
`os.IsNotExist` recognises it. -/
structure PathError where
  msg : String
  notExist : Bool
  deriving DecidableEq, Repr

/-- Go `os.Stat(path)`. Go returns the pair `(info, err)`: on failure `info` is
the nil interface and `err` the error, on success `err` is nil. -/
def osStat (fs : FileSystem) (path : String) : Except PathError FileInfo :=
  match fs path with
  | .absent => .error ⟨"stat " ++ path ++ ": no such file or directory", true⟩
  | .regular => .ok ⟨false⟩
  | .directory => .ok ⟨true⟩

/-- The Go variable `info` of `info, err := os.Stat(path)`; `none` is nil. -/
def statInfo : Except PathError FileInfo → Option FileInfo
  | .error _ => none
  | .ok info => some info

/-- The Go variable `err` of `info, err := os.Stat(path)`; `none` is nil. -/
def statErr : Except PathError FileInfo → Option PathError
  | .error e => some e
  | .ok _ => none

/-- Go method call `info.IsDir()` on an interface value: a call on the nil
interface panics (`none`). -/
def callIsDir : Option FileInfo → Option Bool
  | none => none
  | some info => some info.isDir

/-- Go method call `err.Error()` on an interface value: a call on the nil
interface panics (`none`). -/
def callError : Option PathError → Option String
  | none => none
  | some e => some e.msg

/-- Go `os.IsNotExist(err)`. -/
def osIsNotExist : Option PathError → Bool
  | none => false
  | some e => e.notExist

/-! ## Messaging and contract types (declared outside `server.go`) -/

/-- The instruction constants of package `messaging`. -/
inductive WatcherInstruction where
  | WatcherPause
  | WatcherResume
  | WatcherIgnore
  | WatcherReinstate
  | WatcherAdjustRoot
  | WatcherExecute
  deriving DecidableEq, Repr

/-- Go `messaging.WatcherCommand`; an omitted `Details` is the empty string. -/
structure WatcherCommand where
  Instruction : WatcherInstruction
  Details : String
  deriving DecidableEq, Repr

/-- Go `contract.CompleteOutput`: the `Paused` field the server writes, and the
remaining fields as a payload of an arbitrary type. -/
structure CompleteOutput (ρ : Type) where
  payload : ρ
  Paused : Bool

/-! ## Requests and responses -/

/-- The parts of `*http.Request` the handlers read: the method, the parsed
query (`request.URL.Query()`, a map from a key to its values) and the parsed
form (`request.Form`). -/
structure Request where
  method : String
  query : String → List String
  form : String → List String

/-- Go `url.Values.Get`: the first value of the key, or the empty string. -/
def valuesGet (values : String → List String) (key : String) : String :=
  (values key).headD ""

/-- Go `request.FormValue(key)`. -/
def Request.FormValue (request : Request) (key : String) : String :=
  valuesGet request.form key

/-- The observable state of an `http.ResponseWriter`: the header map, the
status code once the header has been written, and the body written so far. -/
structure ResponseWriter where
  header : List (String × String)
  status : Option Nat
  body : String
  deriving DecidableEq, Repr

/-- A response writer nothing has been written to. -/
def ResponseWriter.fresh : ResponseWriter := ⟨[], none, ""⟩

/-- Go `response.Header().Set(key, value)`. -/
def ResponseWriter.setHeader (w : ResponseWriter) (key value : String) : ResponseWriter :=
  { w with header := (w.header.filter (fun kv => kv.1 != key)) ++ [(key, value)] }

/-- Go `response.WriteHeader(code)`: the first call fixes the status. -/
def ResponseWriter.WriteHeader (w : ResponseWriter) (code : Nat) : ResponseWriter :=
  match w.status with
  | none => { w with status := some code }
  | some _ => w

/-- Go `response.Write(data)`: writes the header with status 200 if it has not
been written, then appends to the body. -/
def ResponseWriter.Write (w : ResponseWriter) (data : String) : ResponseWriter :=
  let w1 := w.WriteHeader 200
  { w1 with body := w1.body ++ data }

/-- Go `http.Error(w, msg, code)`. -/
def httpError (w : ResponseWriter) (msg : String) (code : Nat) : ResponseWriter :=
  let w1 := w.setHeader "Content-Type" "text/plain; charset=utf-8"
  let w2 := w1.setHeader "X-Content-Type-Options" "nosniff"
  (w2.WriteHeader code).Write (msg ++ "\n")

def StatusOK : Nat := 200
def StatusBadRequest : Nat := 400
def StatusNotFound : Nat := 404
def StatusMethodNotAllowed : Nat := 405

/-! ## Configuration and server state -/

structure SoundConfig where
  FilePath : String
  SuccessFilePath : String
  FailureFilePath : String
  deriving DecidableEq, Repr

structure NTFYConfig where
  Server : String
  Topic : String
  Timeout : Int
  AuthHeader : String
  deriving DecidableEq, Repr

structure NotificationConfig where
  Sound : SoundConfig
  NTFY : NTFYConfig
  deriving DecidableEq, Repr

/-- The data fields of `HTTPServer`. The channels `watcher` and `longpoll` and
the executor are the environment; `latest` is a pointer, nil until set. -/
structure HTTPServer (ρ : Type) where
  latest : Option (CompleteOutput ρ)
  currentRoot : String
  paused : Bool
  config : NotificationConfig

/-- Go `NewHTTPServer`: `latest` and `paused` keep their zero values. -/
def NewHTTPServer {ρ : Type} (root : String) (config : NotificationConfig) : HTTPServer ρ :=
  { latest := none, currentRoot := root, paused := false, config := config }

/-- An outbound HTTP request as built by `sendNTFYNotification`, with the
timeout (in seconds) of the client that performs it. -/
structure PushRequest where
  method : String
  url : String
  body : String
  header : List (String × String)
  timeoutSeconds : Int
  deriving DecidableEq, Repr

/-- The server together with the effects of a handler: the response writer of
the request being served, the commands sent on the watcher channel, the
outbound requests handed to the HTTP client, and the lines logged. -/
structure World (ρ : Type) where
  server : HTTPServer ρ
  response : ResponseWriter
  watcherSent : List WatcherCommand
  outbound : List PushRequest
  logged : List String

/-- How a handler ends: it returns, or it panics; either way with the world
as it was at that point. -/
inductive Outcome (ρ : Type) where
  | returned (w : World ρ)
  | panicked (w : World ρ)

/-- Go `fmt.Fprint(response, b)` for a bool. -/
def fmtBool (b : Bool) : String := if b then "true" else "false"

/-! ## `ReceiveUpdate`, `TogglePause`, `Results` -/

/-- Go `HTTPServer.ReceiveUpdate`. -/
def ReceiveUpdate {ρ : Type} (self : HTTPServer ρ) (root : String)
    (update : Option (CompleteOutput ρ)) : HTTPServer ρ :=
  { self with currentRoot := root, latest := update }

/-- Go `HTTPServer.TogglePause`. -/
def TogglePause {ρ : Type} (w : World ρ) : World ρ :=
  let instruction :=
    if w.server.paused then WatcherInstruction.WatcherResume
    else WatcherInstruction.WatcherPause
  let sent := w.watcherSent ++ [⟨instruction, ""⟩]
  let self := { w.server with paused := !w.server.paused }
  { w with server := self, response := w.response.Write (fmtBool self.paused), watcherSent := sent }

/-- Go `HTTPServer.Results`. The second component is the value handed to
`json.Marshal` (`none` is the nil pointer, serialized as JSON `null`). -/
def Results {ρ : Type} (w : World ρ) : World ρ × Option (CompleteOutput ρ) :=
  let r1 := w.response.setHeader "Content-Type" "application/json"
  let r2 := r1.setHeader "Cache-Control" "no-cache, no-store, must-revalidate"
  let r3 := r2.setHeader "Pragma" "no-cache"
  let r4 := r3.setHeader "Expires" "0"
  let latest :=
    match w.server.latest with
    | some l => some { l with Paused := w.server.paused }
    | none => none
  ({ w with server := { w.server with latest := latest }, response := r4 }, latest)

/-- A call made on the server between requests for the results: the watcher
delivering a result, or a pause request (served with a fresh response writer). -/
inductive Call (ρ : Type) where
  | receiveUpdate (root : String) (update : CompleteOutput ρ)
  | togglePause

/-- The server after one call. -/
def Call.apply {ρ : Type} (w : World ρ) : Call ρ → World ρ
  | .receiveUpdate root update => { w with server := ReceiveUpdate w.server root (some update) }
  | .togglePause => TogglePause { w with response := ResponseWriter.fresh }

/-- The server after a sequence of calls, in order. -/
def runCalls {ρ : Type} (w : World ρ) (calls : List (Call ρ)) : World ρ :=
  calls.foldl Call.apply w

/-- The result carried by the most recent `ReceiveUpdate` of a sequence. -/
def lastReceived {ρ : Type} : List (Call ρ) → Option (CompleteOutput ρ)
  | [] => none
  | .receiveUpdate _ update :: rest =>
    match lastReceived rest with
    | some later => some later
    | none => some update
  | .togglePause :: rest => lastReceived rest

/-- A freshly constructed server with nothing sent and nothing written. -/
def freshWorld {ρ : Type} (root : String) (config : NotificationConfig) : World ρ :=
  { server := NewHTTPServer root config, response := ResponseWriter.fresh, watcherSent := [],
    outbound := [], logged := [] }

/-! ## Command bridge: `Watch`, `adjustRoot`, `Ignore`, `Reinstate` -/

/-- Go `HTTPServer.parseQueryString`: the response writer afterwards and the
returned string. -/
def parseQueryString (key : String) (response : ResponseWriter) (request : Request) :
    ResponseWriter × String :=
  let value := request.query key
  if value.length = 0 then
    (httpError response ("No \x27" ++ key ++ "\x27 query string parameter included!")
      StatusBadRequest, "")
  else
    let path := value.headD ""
    if path = "" then
      (httpError response "You must provide a non-blank path." StatusBadRequest, path)
    else
      (response, path)

/-- Go `HTTPServer.adjustRoot`. The condition `!info.IsDir() || err != nil`
is evaluated left to right, so `info.IsDir()` is called first, and
`err.Error()` is called in the branch taken when the condition holds. -/
def adjustRoot {ρ : Type} (fs : FileSystem) (w : World ρ) (request : Request) : Outcome ρ :=
  let parsed := parseQueryString "root" w.response request
  let w1 := { w with response := parsed.1 }
  let newRoot := parsed.2
  if newRoot = "" then
    .returned w1
  else
    let stat := osStat fs newRoot
    let info := statInfo stat
    let err := statErr stat
    match callIsDir info with
    | none => .panicked w1
    | some isDir =>
      if !isDir || err.isSome then
        match callError err with
        | none => .panicked w1
        | some msg => .returned { w1 with response := httpError w1.response msg StatusNotFound }
      else
        .returned { w1 with
          watcherSent := w1.watcherSent ++ [⟨.WatcherAdjustRoot, newRoot⟩] }

/-- Go `HTTPServer.Watch`. -/
def Watch {ρ : Type} (fs : FileSystem) (w : World ρ) (request : Request) : Outcome ρ :=
  if request.method = "POST" then
    adjustRoot fs w request
  else if request.method = "GET" then
    .returned { w with response := w.response.Write w.server.currentRoot }
  else
    .returned w

/-- Go `HTTPServer.Ignore`. -/
def Ignore {ρ : Type} (w : World ρ) (request : Request) : World ρ :=
  let parsed := parseQueryString "paths" w.response request
  let w1 := { w with response := parsed.1 }
  let paths := parsed.2
  if paths ≠ "" then
    { w1 with watcherSent := w1.watcherSent ++ [⟨.WatcherIgnore, paths⟩] }
  else
    w1

/-- Go `HTTPServer.Reinstate`. -/
def Reinstate {ρ : Type} (w : World ρ) (request : Request) : World ρ :=
  let parsed := parseQueryString "paths" w.response request
  let w1 := { w with response := parsed.1 }
  let paths := parsed.2
  if paths ≠ "" then
    { w1 with watcherSent := w1.watcherSent ++ [⟨.WatcherReinstate, paths⟩] }
  else
    w1

/-! ## Long-poll timeout -/

/-- The value of a decimal digit, if the character is one. -/
def digitVal (c : Char) : Option Nat :=
  if 48 ≤ c.toNat ∧ c.toNat ≤ 57 then some (c.toNat - 48) else none

/-- The value of a string of decimal digits read after the value `n`. -/
def parseDigits : List Char → Nat → Option Nat
  | [], n => some n
  | c :: cs, n =>
    match digitVal c with
    | some d => parseDigits cs (n * 10 + d)
    | none => none

/-- Go `strconv.Atoi` on a 64-bit platform: an optional sign, then one or more
decimal digits; a value outside the range of `int` is an error. -/
def Atoi (s : String) : Except String Int :=
  let cs := s.data
  let neg := cs.head? = some '-'
  let digits := if cs.head? = some '-' ∨ cs.head? = some '+' then cs.tail else cs
  if digits.length = 0 then
    .error "invalid syntax"
  else
    match parseDigits digits 0 with
    | none => .error "invalid syntax"
    | some n =>
      let v : Int := if neg then -(n : Int) else (n : Int)
      if v < -9223372036854775808 ∨ 9223372036854775807 < v then
        .error "value out of range"
      else
        .ok v

/-- The timeout in milliseconds computed by `HTTPServer.LongPollStatus` for the
wait of its `select`. -/
def longPollTimeout (request : Request) : Int :=
  match Atoi (valuesGet request.query "timeout") with
  | .error _ => 60000
  | .ok timeout =>
    if timeout > 180000 ∨ timeout < 0 then 60000 else timeout

/-! ## Standard-library functions the validators call -/

/-- The fields of a parsed `url.URL` the server reads. -/
structure URL where
  Scheme : String
  Host : String
  deriving DecidableEq, Repr

/-- The library and network behaviour the server depends on and that is taken
as given: the Unicode lower-case mapping of a non-ASCII rune, `url.Parse`
(`none` is an error), the error of `http.NewRequest` for a URL, and the error
of `client.Do` for a request (`none` is nil in both). -/
structure Env where
  unicodeToLower : Char → Char
  urlParse : String → Option URL
  newRequestErr : String → Option String
  clientDoErr : PushRequest → Option String

/-- Go `filepath.Ext` on a list of characters: the loop
`for i := len(path) - 1; i >= 0 && !os.IsPathSeparator(path[i]); i--`,
with `n = i + 1`. -/
def extLoop (path : List Char) : Nat → List Char
  | 0 => []
  | i + 1 =>
    match path.get? i with
    | none => []
    | some c =>
      if c = '/' then []
      else if c = '.' then path.drop i
      else extLoop path i

/-- Go `filepath.Ext(path)`. -/
def Ext (path : String) : String :=
  ⟨extLoop path.data path.data.length⟩

/-- Go `strings.ToLower` on one rune: ASCII upper-case letters are shifted by
`'a' - 'A'`, other ASCII runes are kept, other runes go through
`unicode.ToLower`. -/
def toLowerRune (env : Env) (c : Char) : Char :=
  if c.toNat < 128 then
    (if 65 ≤ c.toNat ∧ c.toNat ≤ 90 then Char.ofNat (c.toNat + 32) else c)
  else env.unicodeToLower c

/-- Go `strings.ToLower(s)`. -/
def ToLower (env : Env) (s : String) : String :=
  ⟨s.data.map (toLowerRune env)⟩

/-- The fragment of the RE2 syntax of Go `regexp` that the topic pattern uses:
`^` and `$` without the multi-line flag (begin and end of the text), a
character class given by its ranges, one-or-more, and concatenation. -/
inductive Regexp where
  | beginText
  | endText
  | charClass (ranges : List (Char × Char))
  | plus (r : Regexp)
  | concat (r s : Regexp)

/-- Whether a character lies in one of the ranges of a class. -/
def inClass (ranges : List (Char × Char)) (c : Char) : Bool :=
  ranges.any (fun r => decide (r.1 ≤ c ∧ c ≤ r.2))

/-- The positions reached from the positions `cur` by one or more, and at most
`fuel`, steps. -/
def iterEnds (step : Nat → List Nat) : Nat → List Nat → List Nat
  | 0, _ => []
  | fuel + 1, cur => cur.flatMap step ++ iterEnds step fuel (cur.flatMap step)

/-- The positions of `text` at which a match of the expression that starts
at position `i` can end. -/
def Regexp.ends (text : List Char) : Regexp → Nat → List Nat
  | .beginText, i => if i = 0 then [i] else []
  | .endText, i => if i = text.length then [i] else []
  | .charClass ranges, i =>
    match text[i]? with
    | some c => if inClass ranges c then [i + 1] else []
    | none => []
  | .plus r, i => iterEnds (Regexp.ends text r) (text.length + 1) [i]
  | .concat r s, i => (Regexp.ends text r i).flatMap (Regexp.ends text s)

/-- Go `(*Regexp).MatchString`: whether the text contains a match, starting
at any position. -/
def Regexp.MatchString (re : Regexp) (s : String) : Bool :=
  (List.range (s.data.length + 1)).any (fun i => !(re.ends s.data i).isEmpty)

/-- The pattern `^[A-Za-z0-9_-]+$` of `isValidNTFYTopic`, parsed. -/
def validRegex : Regexp :=
  .concat .beginText
    (.concat (.plus (.charClass [('A', 'Z'), ('a', 'z'), ('0', '9'), ('_', '_'), ('-', '-')]))
      .endText)

/-! ## ConfigValidator -/

/-- The allow-list of `isValidSoundFile`. -/
def validExts : List String := [".mp3", ".wav", ".ogg", ".m4a", ".webm"]

/-- Go `HTTPServer.isValidSoundFile`. In `err != nil || info.IsDir()` the call
`info.IsDir()` is made only when `err` is nil, that is when `info` is not. -/
def isValidSoundFile (env : Env) (fs : FileSystem) (path : String) : Bool :=
  if path = "" then
    false
  else
    match osStat fs path with
    | .error _ => false
    | .ok info =>
      if info.isDir then
        false
      else
        let ext := ToLower env (Ext path)
        validExts.any (fun valid => ext = valid)

/-- Go `HTTPServer.isValidNTFYServer`. -/
def isValidNTFYServer (env : Env) (server : String) : Bool :=
  if server = "" then
    false
  else
    match env.urlParse server with
    | none => false
    | some u =>
      if u.Scheme ≠ "http" ∧ u.Scheme ≠ "https" then
        false
      else if u.Host = "" then
        false
      else
        true

/-- Go `HTTPServer.isValidNTFYTopic`. -/
def isValidNTFYTopic (topic : String) : Bool :=
  if topic = "" then
    false
  else
    validRegex.MatchString topic

/-- Go `HTTPServer.isSuccessSoundEnabled`. -/
def isSuccessSoundEnabled (env : Env) (fs : FileSystem) (config : NotificationConfig) : Bool :=
  if config.Sound.SuccessFilePath ≠ "" then
    isValidSoundFile env fs config.Sound.SuccessFilePath
  else
    isValidSoundFile env fs config.Sound.FilePath

/-- Go `HTTPServer.isFailureSoundEnabled`. -/
def isFailureSoundEnabled (env : Env) (fs : FileSystem) (config : NotificationConfig) : Bool :=
  if config.Sound.FailureFilePath ≠ "" then
    isValidSoundFile env fs config.Sound.FailureFilePath
  else
    isValidSoundFile env fs config.Sound.FilePath

/-- Go `HTTPServer.isSoundEnabled`. -/
def isSoundEnabled (env : Env) (fs : FileSystem) (config : NotificationConfig) : Bool :=
  isSuccessSoundEnabled env fs config || isFailureSoundEnabled env fs config

/-- Go `HTTPServer.isNTFYEnabled`. -/
def isNTFYEnabled (env : Env) (config : NotificationConfig) : Bool :=
  isValidNTFYServer env config.NTFY.Server && isValidNTFYTopic config.NTFY.Topic

/-! ## `ConfigStatus` and sound file retrieval -/

/-- Go `HTTPServer.ConfigStatus`: the response writer afterwards and, when the
method is GET, the status map handed to the JSON encoder (keys in the order
the encoder writes them). -/
def ConfigStatus (env : Env) (fs : FileSystem) (config : NotificationConfig)
    (response : ResponseWriter) (request : Request) :
    ResponseWriter × Option (List (String × Bool)) :=
  if request.method ≠ "GET" then
    (httpError response "Method not allowed" StatusMethodNotAllowed, none)
  else
    let r1 := response.setHeader "Content-Type" "application/json"
    let status := [
      ("failureSoundConfigured", isFailureSoundEnabled env fs config),
      ("ntfyConfigured", isNTFYEnabled env config),
      ("soundConfigured", isSoundEnabled env fs config),
      ("successSoundConfigured", isSuccessSoundEnabled env fs config)]
    (r1, some status)

/-- How a sound handler ends: with the response it wrote itself, or by
calling `http.ServeFile` on a path. -/
inductive SoundOutcome where
  | wrote (response : ResponseWriter)
  | serveFile (response : ResponseWriter) (filePath : String)
  deriving DecidableEq, Repr

/-- Go `HTTPServer.SuccessSoundFile`. -/
def SuccessSoundFile (fs : FileSystem) (config : NotificationConfig)
    (response : ResponseWriter) (request : Request) : SoundOutcome :=
  if request.method ≠ "GET" then
    .wrote (httpError response "Method not allowed" StatusMethodNotAllowed)
  else
    let filePath :=
      if config.Sound.SuccessFilePath ≠ "" then config.Sound.SuccessFilePath
      else config.Sound.FilePath
    if filePath = "" then
      .wrote (httpError response "No success sound file configured" StatusNotFound)
    else if osIsNotExist (statErr (osStat fs filePath)) then
      .wrote (httpError response "Success sound file not found" StatusNotFound)
    else
      .serveFile response filePath

/-- Go `HTTPServer.FailureSoundFile`. -/
def FailureSoundFile (fs : FileSystem) (config : NotificationConfig)
    (response : ResponseWriter) (request : Request) : SoundOutcome :=
  if request.method ≠ "GET" then
    .wrote (httpError response "Method not allowed" StatusMethodNotAllowed)
  else
    let filePath :=
      if config.Sound.FailureFilePath ≠ "" then config.Sound.FailureFilePath
      else config.Sound.FilePath
    if filePath = "" then
      .wrote (httpError response "No failure sound file configured" StatusNotFound)
    else if osIsNotExist (statErr (osStat fs filePath)) then
      .wrote (httpError response "Failure sound file not found" StatusNotFound)
    else
      .serveFile response filePath

/-! ## Push notifications -/

/-- Go `HTTPServer.sendNTFYNotification`. A request handed to `client.Do` is
appended to `outbound`; `log.Printf` appends to `logged`. -/
def sendNTFYNotification {ρ : Type} (env : Env) (w : World ρ) (config : NotificationConfig)
    (title body : String) : World ρ :=
  if !isNTFYEnabled env w.server.config then
    w
  else
    let url := config.NTFY.Server ++ "/" ++ config.NTFY.Topic
    match env.newRequestErr url with
    | some err => { w with logged := w.logged ++ ["NTFY request creation failed: " ++ err] }
    | none =>
      let h1 := [("Title", title)]
      let h2 := if config.NTFY.AuthHeader ≠ "" then
        h1 ++ [("Authorization", config.NTFY.AuthHeader)] else h1
      let req : PushRequest := ⟨"POST", url, body, h2, config.NTFY.Timeout⟩
      let w1 := { w with outbound := w.outbound ++ [req] }
      match env.clientDoErr req with
      | some err => { w1 with logged := w1.logged ++ ["NTFY request failed: " ++ err] }
      | none => w1

/-- Go `HTTPServer.SendNTFY`. -/
def SendNTFY {ρ : Type} (env : Env) (w : World ρ) (request : Request) : World ρ :=
  if request.method ≠ "POST" then
    { w with response := httpError w.response "Method not allowed" StatusMethodNotAllowed }
  else
    let title := request.FormValue "title"
    let body := request.FormValue "body"
    if title = "" ∨ body = "" then
      { w with response := httpError w.response "Missing title or body" StatusBadRequest }
    else
      let w1 := sendNTFYNotification env w w.server.config title body
      { w1 with response := w1.response.WriteHeader StatusOK }

/-! ## The specification's wording, for comparison with the code -/

/-- A character that is an ASCII letter, an ASCII digit, `_` or `-`. -/
def isTopicChar (c : Char) : Prop :=
  (('A' ≤ c ∧ c ≤ 'Z') ∨ ('a' ≤ c ∧ c ≤ 'z')) ∨ ('0' ≤ c ∧ c ≤ '9') ∨ c = '_' ∨ c = '-'

/-- The final element of a path: what follows its last `/`. -/
def finalElement (path : List Char) : List Char :=
  (path.reverse.takeWhile (fun c => c ≠ '/')).reverse

/-- The suffix of a name from its last `.`, empty when it has none. -/
def suffixFromLastDot (name : List Char) : List Char :=
  if '.' ∈ name then '.' :: (name.reverse.takeWhile (fun c => c ≠ '.')).reverse else []

/-- The extension of a path in the specification's words: the suffix from the
last `.` of its final path element. -/
def extensionOf (path : String) : String :=
  ⟨suffixFromLastDot (finalElement path.data)⟩

/-! ## Concrete inputs used in the examples -/

/-- An example configuration: the library defaults plus a generic sound file. -/
def exampleConfig : NotificationConfig :=
  { Sound := { FilePath := "/tmp/a.mp3", SuccessFilePath := "", FailureFilePath := "" },
    NTFY := { Server := "https://ntfy.sh", Topic := "goconvey-notifications", Timeout := 30,
              AuthHeader := "" } }

/-- An example file system: the directory `/tmp` holding the file `/tmp/a.mp3`. -/
def exampleFS : FileSystem := fun path =>
  if path = "/tmp" then .directory
  else if path = "/tmp/a.mp3" then .regular
  else .absent

/-- A request with the given method and a single query parameter. -/
def requestWith (method key value : String) : Request :=
  { method := method, query := fun k => if k = key then [value] else [], form := fun _ => [] }

/-- An example environment: no non-ASCII case mapping, a parser that accepts
only the default server, a network on which every request succeeds. -/
def exampleEnv : Env :=
  { unicodeToLower := fun c => c,
    urlParse := fun u => if u = "https://ntfy.sh" then some ⟨"https", "ntfy.sh"⟩ else none,
    newRequestErr := fun _ => none,
    clientDoErr := fun _ => none }

/-- A POST request with the given form fields `title` and `body`. -/
def notifyRequest (method title body : String) : Request :=
  { method := method, query := fun _ => [],
    form := fun k => if k = "title" then [title] else if k = "body" then [body] else [] }

/-- A freshly constructed example server, with no payload in its results. -/
def exampleWorld : World Unit := freshWorld "/tmp" exampleConfig

/-! ## Theorems -/

/-! ### Pause state and results -/

theorem results_runCalls {ρ : Type} (calls : List (Call ρ)) (w : World ρ) :
    (Results (runCalls w calls)).2 =
      ((lastReceived calls).orElse (fun _ => w.server.latest)).map
        (fun r => { r with Paused := (runCalls w calls).server.paused }) := by
  induction calls generalizing w with
  | nil => cases h : w.server.latest <;> simp [runCalls, Results, lastReceived, h]
  | cons c rest ih =>
    have hstep : runCalls w (c :: rest) = runCalls (Call.apply w c) rest := rfl
    rw [hstep, ih]
    cases c with
    | receiveUpdate root update =>
      cases hl : lastReceived rest <;> simp [lastReceived, hl, Call.apply, ReceiveUpdate]
    | togglePause =>
      cases hl : lastReceived rest <;> simp [lastReceived, hl, Call.apply, TogglePause]

/-- The meaning of `lastReceived`: it is empty exactly when the sequence has no
`ReceiveUpdate`, a later `ReceiveUpdate` replaces it, a later `TogglePause`
keeps it. -/
theorem lastReceived_characterisation {ρ : Type} (calls : List (Call ρ)) :
    (lastReceived calls = none ↔ ∀ c ∈ calls, c = Call.togglePause) ∧
    (∀ (root : String) (update : CompleteOutput ρ),
      lastReceived (calls ++ [Call.receiveUpdate root update]) = some update) ∧
    lastReceived (calls ++ [Call.togglePause]) = lastReceived calls := by
  induction calls with
  | nil => simp [lastReceived]
  | cons c rest ih =>
    obtain ⟨ih1, ih2, ih3⟩ := ih
    cases c with
    | receiveUpdate r u =>
      refine ⟨?_, fun root update => ?_, ?_⟩
      · cases hl : lastReceived rest <;> simp [lastReceived, hl]
      · simp [lastReceived, ih2 root update]
      · simp [lastReceived, ih3]
    | togglePause =>
      refine ⟨?_, fun root update => ?_, ?_⟩
      · simp [lastReceived, ih1]
      · simp [lastReceived, ih2 root update]
      · simp [lastReceived, ih3]

/-- C8: for every server state, `TogglePause` sends exactly one command on the
watcher channel (Pause when the server was not paused, Resume when it was),
negates the paused flag, leaves the rest of the server alone and writes the
new flag as text; from a freshly constructed server two consecutive calls
write "true" then "false" and leave the flag at its initial value. -/
theorem togglePause_spec {ρ : Type} :
    (∀ w : World ρ,
      (TogglePause w).watcherSent = w.watcherSent ++
        [⟨if w.server.paused then .WatcherResume else .WatcherPause, ""⟩] ∧
      (TogglePause w).server.paused = (!w.server.paused) ∧
      (TogglePause w).server.latest = w.server.latest ∧
      (TogglePause w).server.currentRoot = w.server.currentRoot ∧
      (TogglePause w).response = w.response.Write (if w.server.paused then "false" else "true")) ∧
    (∀ (root : String) (config : NotificationConfig),
      (TogglePause (freshWorld root config : World ρ)).response.body = "true" ∧
      (TogglePause { TogglePause (freshWorld root config : World ρ) with
          response := ResponseWriter.fresh }).response.body = "false" ∧
      (TogglePause { TogglePause (freshWorld root config : World ρ) with
          response := ResponseWriter.fresh }).server.paused =
        (freshWorld root config : World ρ).server.paused ∧
      (TogglePause { TogglePause (freshWorld root config : World ρ) with
          response := ResponseWriter.fresh }).watcherSent =
        [⟨.WatcherPause, ""⟩, ⟨.WatcherResume, ""⟩]) := by
  refine ⟨fun w => ⟨rfl, rfl, rfl, rfl, ?_⟩, fun root config => ⟨?_, ?_, rfl, rfl⟩⟩
  · cases h : w.server.paused <;> simp [TogglePause, fmtBool, h]
  · simp [TogglePause, freshWorld, NewHTTPServer, fmtBool, ResponseWriter.Write,
      ResponseWriter.WriteHeader, ResponseWriter.fresh]
  · simp [TogglePause, freshWorld, NewHTTPServer, fmtBool, ResponseWriter.Write,
      ResponseWriter.WriteHeader, ResponseWriter.fresh]

/-- C9: for every sequence of `ReceiveUpdate` calls (each delivering a result)
and `TogglePause` calls on a freshly constructed server followed by
`Results`, the value serialized is the most recently received result with its
`Paused` field set to the current paused flag, and JSON null (`none`) when no
result was received; the stored result is the serialized one. -/
theorem results_spec {ρ : Type} (root : String) (config : NotificationConfig)
    (calls : List (Call ρ)) :
    (Results (runCalls (freshWorld root config) calls)).2 =
      (lastReceived calls).map
        (fun r => { r with Paused := (runCalls (freshWorld root config) calls).server.paused }) ∧
    (Results (runCalls (freshWorld root config) calls)).1.server.latest =
      (Results (runCalls (freshWorld root config) calls)).2 ∧
    (Results (runCalls (freshWorld root config) calls)).1.server.paused =
      (runCalls (freshWorld root config) calls).server.paused := by
  refine ⟨?_, rfl, rfl⟩
  rw [results_runCalls]
  cases lastReceived calls <;> simp [freshWorld, NewHTTPServer]

/-! ### Command bridge -/

theorem parseQueryString_nonblank (key : String) (response : ResponseWriter)
    (request : Request) (hq : (request.query key).headD "" ≠ "") :
    parseQueryString key response request = (response, (request.query key).headD "") := by
  unfold parseQueryString
  cases hv : request.query key with
  | nil => rw [hv] at hq; exact absurd rfl hq
  | cons a l =>
    rw [hv] at hq
    have ha : a ≠ "" := hq
    simp [ha]

theorem parseQueryString_blank (key : String) (response : ResponseWriter)
    (request : Request) (hq : (request.query key).head? = some "") :
    parseQueryString key response request =
      (httpError response "You must provide a non-blank path." StatusBadRequest, "") := by
  unfold parseQueryString
  cases hv : request.query key with
  | nil => rw [hv] at hq; simp at hq
  | cons a l =>
    rw [hv] at hq
    have ha : a = "" := by simpa using hq
    simp [ha]

/-- For every POST root-change request whose non-empty `root` does not name a
directory, `adjustRoot` panics before it has written anything or sent a
command: on a missing path at `info.IsDir()`, on a regular file at
`err.Error()`. -/
theorem adjustRoot_not_directory_panics {ρ : Type} (fs : FileSystem) (w : World ρ)
    (request : Request) (hm : request.method = "POST")
    (hq : (request.query "root").headD "" ≠ "")
    (hd : fs ((request.query "root").headD "") ≠ .directory) :
    Watch fs w request = .panicked w := by
  unfold Watch adjustRoot
  rw [if_pos hm, parseQueryString_nonblank "root" w.response request hq]
  simp only [if_neg hq]
  generalize (request.query "root").headD "" = newRoot at hq hd ⊢
  cases hk : fs newRoot with
  | absent => simp [osStat, hk, statInfo, callIsDir]
  | regular => simp [osStat, hk, statInfo, statErr, callIsDir, callError]
  | directory => exact absurd hk hd

/-- C1: `POST /watch?root=/nonexistent` (a missing path) and
`POST /watch?root=/tmp/a.mp3` (a regular file) both end in a panic with no
response written and no command sent, while `POST /watch?root=/tmp`
(a directory) sends the AdjustRoot command. -/
theorem adjustRoot_panics_instead_of_404 :
    Watch exampleFS exampleWorld (requestWith "POST" "root" "/nonexistent") =
      .panicked exampleWorld ∧
    Watch exampleFS exampleWorld (requestWith "POST" "root" "/tmp/a.mp3") =
      .panicked exampleWorld ∧
    exampleWorld.response.status = none ∧
    exampleWorld.watcherSent = [] ∧
    Watch exampleFS exampleWorld (requestWith "POST" "root" "/tmp") =
      .returned { exampleWorld with watcherSent := [⟨.WatcherAdjustRoot, "/tmp"⟩] } := by
  refine ⟨?_, ?_, rfl, rfl, ?_⟩
  · simp [Watch, requestWith, adjustRoot, parseQueryString, osStat, exampleFS, statInfo,
      callIsDir]
  · simp [Watch, requestWith, adjustRoot, parseQueryString, osStat, exampleFS, statInfo,
      statErr, callIsDir, callError]
  · simp [Watch, requestWith, adjustRoot, parseQueryString, osStat, exampleFS, statInfo,
      statErr, callIsDir, exampleWorld, freshWorld]

/-- C2 as stated fails: on `paths=` (present, empty) `Ignore` and `Reinstate`
send no command but do write an error response, status 400 with the text
"You must provide a non-blank path.". -/
theorem emptyPaths_writes_400 :
    (Ignore exampleWorld (requestWith "GET" "paths" "")).watcherSent = [] ∧
    (Ignore exampleWorld (requestWith "GET" "paths" "")).response.status = some 400 ∧
    (Ignore exampleWorld (requestWith "GET" "paths" "")).response.body =
      "You must provide a non-blank path.\n" ∧
    (Ignore exampleWorld (requestWith "GET" "paths" "")).response ≠ exampleWorld.response ∧
    (Reinstate exampleWorld (requestWith "GET" "paths" "")).watcherSent = [] ∧
    (Reinstate exampleWorld (requestWith "GET" "paths" "")).response.status = some 400 ∧
    (Reinstate exampleWorld (requestWith "GET" "paths" "")).response ≠ exampleWorld.response := by
  simp [Ignore, Reinstate, requestWith, parseQueryString, httpError, exampleWorld, freshWorld,
    ResponseWriter.fresh, ResponseWriter.setHeader, ResponseWriter.WriteHeader,
    ResponseWriter.Write, StatusBadRequest]

/-- C2 amended: for every `Ignore` and every `Reinstate` request whose `paths`
query parameter is present but empty, the handler sends no command on the
watcher channel, leaves the server unchanged, and answers with `http.Error`,
status 400 and the text "You must provide a non-blank path.". -/
theorem emptyPaths_no_dispatch_400 {ρ : Type} (w : World ρ) (request : Request)
    (h : (request.query "paths").head? = some "") :
    (Ignore w request).watcherSent = w.watcherSent ∧
    (Ignore w request).response =
      httpError w.response "You must provide a non-blank path." StatusBadRequest ∧
    (Ignore w request).server = w.server ∧
    (Reinstate w request).watcherSent = w.watcherSent ∧
    (Reinstate w request).response =
      httpError w.response "You must provide a non-blank path." StatusBadRequest ∧
    (Reinstate w request).server = w.server ∧
    (w.response.status = none → (Ignore w request).response.status = some 400 ∧
      (Reinstate w request).response.status = some 400) := by
  have hp := parseQueryString_blank "paths" w.response request h
  refine ⟨?_, ?_, ?_, ?_, ?_, ?_, ?_⟩
  · simp [Ignore, hp]
  · simp [Ignore, hp]
  · simp [Ignore, hp]
  · simp [Reinstate, hp]
  · simp [Reinstate, hp]
  · simp [Reinstate, hp]
  · intro hs
    simp [Ignore, Reinstate, hp, httpError, ResponseWriter.setHeader,
      ResponseWriter.WriteHeader, ResponseWriter.Write, StatusBadRequest, hs]

theorem emptyPaths_no_dispatch_400_witness :
    (Ignore exampleWorld (requestWith "GET" "paths" "")).watcherSent = [] ∧
    (Ignore exampleWorld (requestWith "GET" "paths" "")).response.status = some 400 :=
  have h := emptyPaths_no_dispatch_400 exampleWorld (requestWith "GET" "paths" "")
    (by simp [requestWith])
  ⟨h.1, (h.2.2.2.2.2.2 rfl).1⟩

/-! ### Push notifications -/

theorem sendNTFYNotification_response {ρ : Type} (env : Env) (w : World ρ)
    (config : NotificationConfig) (title body : String) :
    (sendNTFYNotification env w config title body).response = w.response ∧
    (sendNTFYNotification env w config title body).server = w.server ∧
    (sendNTFYNotification env w config title body).watcherSent = w.watcherSent := by
  unfold sendNTFYNotification
  split
  · exact ⟨rfl, rfl, rfl⟩
  · dsimp only
    split
    · exact ⟨rfl, rfl, rfl⟩
    · split <;> exact ⟨rfl, rfl, rfl⟩

theorem sendNTFYNotification_disabled {ρ : Type} (env : Env) (w : World ρ)
    (config : NotificationConfig) (title body : String)
    (h : isNTFYEnabled env w.server.config = false) :
    sendNTFYNotification env w config title body = w := by
  simp [sendNTFYNotification, h]

/-- C7: a `SendNTFY` request whose method is not POST is answered 405 and
nothing is sent; a POST whose `title` or `body` form field is empty is
answered 400 and no outbound request is made; a POST with both fields
non-empty is answered 200 for every environment, that is whatever
`http.NewRequest` and `client.Do` return, and when push is not enabled
nothing is sent. The response writer is one whose header is not yet written. -/
theorem sendNTFY_spec {ρ : Type} (env : Env) (w : World ρ) (request : Request)
    (hfresh : w.response.status = none) :
    (request.method ≠ "POST" →
      (SendNTFY env w request).response.status = some 405 ∧
      (SendNTFY env w request).outbound = w.outbound) ∧
    (request.method = "POST" →
      (request.FormValue "title" = "" ∨ request.FormValue "body" = "") →
      (SendNTFY env w request).response.status = some 400 ∧
      (SendNTFY env w request).outbound = w.outbound) ∧
    (request.method = "POST" → request.FormValue "title" ≠ "" →
      request.FormValue "body" ≠ "" →
      (SendNTFY env w request).response.status = some 200 ∧
      (SendNTFY env w request).response.body = w.response.body ∧
      (isNTFYEnabled env w.server.config = false →
        (SendNTFY env w request).outbound = w.outbound)) := by
  refine ⟨fun hm => ?_, fun hm he => ?_, fun hm ht hb => ?_⟩
  · simp [SendNTFY, hm, httpError, ResponseWriter.setHeader, ResponseWriter.WriteHeader,
      ResponseWriter.Write, StatusMethodNotAllowed, hfresh]
  · simp [SendNTFY, hm, he, httpError, ResponseWriter.setHeader, ResponseWriter.WriteHeader,
      ResponseWriter.Write, StatusBadRequest, hfresh]
  · have hr := sendNTFYNotification_response env w w.server.config
      (request.FormValue "title") (request.FormValue "body")
    refine ⟨?_, ?_, fun hd => ?_⟩
    · simp [SendNTFY, hm, ht, hb, hr.1, ResponseWriter.WriteHeader, hfresh, StatusOK]
    · simp [SendNTFY, hm, ht, hb, hr.1, ResponseWriter.WriteHeader, hfresh]
    · simp [SendNTFY, hm, ht, hb, sendNTFYNotification_disabled env w _ _ _ hd]

theorem sendNTFY_spec_witness :
    (SendNTFY exampleEnv exampleWorld (notifyRequest "GET" "t" "b")).response.status
      = some 405 ∧
    (SendNTFY exampleEnv exampleWorld (notifyRequest "POST" "" "b")).response.status
      = some 400 ∧
    (SendNTFY exampleEnv exampleWorld (notifyRequest "POST" "" "b")).outbound = [] ∧
    (SendNTFY exampleEnv exampleWorld (notifyRequest "POST" "t" "b")).response.status
      = some 200 :=
  ⟨((sendNTFY_spec exampleEnv exampleWorld (notifyRequest "GET" "t" "b") rfl).1
      (by simp [notifyRequest])).1,
   ((sendNTFY_spec exampleEnv exampleWorld (notifyRequest "POST" "" "b") rfl).2.1
      (by simp [notifyRequest]) (by simp [notifyRequest, Request.FormValue, valuesGet])).1,
   ((sendNTFY_spec exampleEnv exampleWorld (notifyRequest "POST" "" "b") rfl).2.1
      (by simp [notifyRequest]) (by simp [notifyRequest, Request.FormValue, valuesGet])).2,
   ((sendNTFY_spec exampleEnv exampleWorld (notifyRequest "POST" "t" "b") rfl).2.2
      (by simp [notifyRequest]) (by simp [notifyRequest, Request.FormValue, valuesGet])
      (by simp [notifyRequest, Request.FormValue, valuesGet])).1⟩

/-! ### ConfigValidator -/

theorem extLoop_append (r ys : List Char) :
    extLoop (r.reverse ++ ys) r.length =
      if '.' ∈ r.takeWhile (fun c => c ≠ '/') then
        '.' :: ((r.takeWhile (fun c => c ≠ '/')).takeWhile (fun c => c ≠ '.')).reverse ++ ys
      else [] := by
  induction r generalizing ys with
  | nil => simp [extLoop]
  | cons c r ih =>
    have hget : (r.reverse ++ c :: ys).get? r.length = some c := by
      have hlen : r.reverse.length ≤ r.length := by simp
      rw [List.get?_eq_getElem?, List.getElem?_append_right hlen]
      simp
    have hdrop : (r.reverse ++ c :: ys).drop r.length = c :: ys := by
      simp
    have hstep : extLoop (r.reverse ++ c :: ys) (r.length + 1) =
        if c = '/' then [] else if c = '.' then c :: ys
        else extLoop (r.reverse ++ c :: ys) r.length := by
      simp only [extLoop, hget, hdrop]
    have hl : (c :: r).reverse ++ ys = r.reverse ++ c :: ys := by simp
    rw [hl, List.length_cons, hstep]
    by_cases h1 : c = '/'
    · simp [h1]
    · by_cases h2 : c = '.'
      · subst h2
        simp
      · have h2x : ¬ '.' = c := fun h => h2 h.symm
        rw [if_neg h1, if_neg h2, ih (c :: ys)]
        simp [List.takeWhile_cons, h1, h2, h2x]

/-- The loop of `filepath.Ext` computes the extension as the specification
words it: the suffix from the last `.` of the final path element. -/
theorem Ext_eq_extensionOf (path : String) : Ext path = extensionOf path := by
  have h := extLoop_append path.data.reverse []
  simp only [List.reverse_reverse, List.append_nil, List.length_reverse] at h
  simp only [Ext, extensionOf, suffixFromLastDot, finalElement, h, List.mem_reverse,
    List.reverse_reverse]

theorem isValidSoundFile_iff (env : Env) (fs : FileSystem) (path : String) :
    isValidSoundFile env fs path = true ↔
      path ≠ "" ∧ fs path = .regular ∧ ToLower env (Ext path) ∈ validExts := by
  unfold isValidSoundFile
  by_cases hp : path = ""
  · simp [hp]
  · cases hk : fs path <;> simp [hp, osStat, hk]

/-- C4: with the file system an explicit lookup from a path to absent /
regular file / directory, `isValidSoundFile` returns true exactly when the
path is non-empty, exists, is not a directory, and its extension (the suffix
from the last `.` of its final element), lower-cased, is one of `.mp3`,
`.wav`, `.ogg`, `.m4a`, `.webm`; otherwise it returns false. -/
theorem isValidSoundFile_spec (env : Env) (fs : FileSystem) (path : String) :
    (isValidSoundFile env fs path = true ↔
      path ≠ "" ∧ (fs path ≠ .absent ∧ fs path ≠ .directory) ∧
      ToLower env (extensionOf path) ∈ [".mp3", ".wav", ".ogg", ".m4a", ".webm"]) ∧
    (isValidSoundFile env fs path = false ↔
      ¬ (path ≠ "" ∧ (fs path ≠ .absent ∧ fs path ≠ .directory) ∧
        ToLower env (extensionOf path) ∈ [".mp3", ".wav", ".ogg", ".m4a", ".webm"])) := by
  have hk : (fs path ≠ .absent ∧ fs path ≠ .directory) ↔ fs path = .regular := by
    cases fs path <;> simp
  have h := isValidSoundFile_iff env fs path
  rw [Ext_eq_extensionOf] at h
  have h1 : isValidSoundFile env fs path = true ↔
      path ≠ "" ∧ (fs path ≠ .absent ∧ fs path ≠ .directory) ∧
      ToLower env (extensionOf path) ∈ [".mp3", ".wav", ".ogg", ".m4a", ".webm"] := by
    rw [h, hk]
    rfl
  refine ⟨h1, ?_⟩
  rw [← h1]
  cases isValidSoundFile env fs path <;> simp

/-- C5: when `Sound.SuccessFilePath` and `Sound.FailureFilePath` are both
empty, `isSuccessSoundEnabled`, `isFailureSoundEnabled` and `isSoundEnabled`
all equal `isValidSoundFile(Sound.FilePath)`; and when moreover
`Sound.FilePath` is an existing regular file with an allowed extension, a GET
of `ConfigStatus` reports `soundConfigured`, `successSoundConfigured` and
`failureSoundConfigured` all true. -/
theorem fallback_law (env : Env) (fs : FileSystem) (config : NotificationConfig)
    (hs : config.Sound.SuccessFilePath = "") (hf : config.Sound.FailureFilePath = "") :
    isSuccessSoundEnabled env fs config = isValidSoundFile env fs config.Sound.FilePath ∧
    isFailureSoundEnabled env fs config = isValidSoundFile env fs config.Sound.FilePath ∧
    isSoundEnabled env fs config = isValidSoundFile env fs config.Sound.FilePath ∧
    (config.Sound.FilePath ≠ "" → fs config.Sound.FilePath = .regular →
      ToLower env (Ext config.Sound.FilePath) ∈ validExts →
      ∀ (response : ResponseWriter) (request : Request), request.method = "GET" →
        (ConfigStatus env fs config response request).2 = some [
          ("failureSoundConfigured", true),
          ("ntfyConfigured", isNTFYEnabled env config),
          ("soundConfigured", true),
          ("successSoundConfigured", true)]) := by
  have h1 : isSuccessSoundEnabled env fs config =
      isValidSoundFile env fs config.Sound.FilePath := by
    simp [isSuccessSoundEnabled, hs]
  have h2 : isFailureSoundEnabled env fs config =
      isValidSoundFile env fs config.Sound.FilePath := by
    simp [isFailureSoundEnabled, hf]
  have h3 : isSoundEnabled env fs config =
      isValidSoundFile env fs config.Sound.FilePath := by
    simp [isSoundEnabled, h1, h2]
  refine ⟨h1, h2, h3, fun hne hreg hext response request hm => ?_⟩
  have hv : isValidSoundFile env fs config.Sound.FilePath = true :=
    (isValidSoundFile_iff env fs _).2 ⟨hne, hreg, hext⟩
  simp [ConfigStatus, hm, h1, h2, h3, hv]

theorem fallback_law_witness :
    isSuccessSoundEnabled exampleEnv exampleFS exampleConfig = true ∧
    isFailureSoundEnabled exampleEnv exampleFS exampleConfig = true ∧
    isSoundEnabled exampleEnv exampleFS exampleConfig = true ∧
    (ConfigStatus exampleEnv exampleFS exampleConfig ResponseWriter.fresh
        (requestWith "GET" "" "")).2 = some [
      ("failureSoundConfigured", true),
      ("ntfyConfigured", isNTFYEnabled exampleEnv exampleConfig),
      ("soundConfigured", true),
      ("successSoundConfigured", true)] :=
  have h := fallback_law exampleEnv exampleFS exampleConfig rfl rfl
  have hv : isValidSoundFile exampleEnv exampleFS exampleConfig.Sound.FilePath = true := by
    decide
  ⟨h.1.trans hv, h.2.1.trans hv, h.2.2.1.trans hv,
    h.2.2.2 (by decide) (by decide) (by decide) ResponseWriter.fresh
      (requestWith "GET" "" "") rfl⟩

/-- C10: with the configuration and the file system unchanged, if
`isSuccessSoundEnabled()` is true then a GET handled by `SuccessSoundFile`
writes nothing itself and calls `http.ServeFile` on the effective path that
was validated (`Sound.SuccessFilePath` if non-empty, else `Sound.FilePath`);
likewise `isFailureSoundEnabled()` and `FailureSoundFile` with
`Sound.FailureFilePath`. -/
theorem sound_status_retrieval_consistent (env : Env) (fs : FileSystem)
    (config : NotificationConfig) (response : ResponseWriter) (request : Request)
    (hm : request.method = "GET") :
    (isSuccessSoundEnabled env fs config = true →
      SuccessSoundFile fs config response request =
        .serveFile response
          (if config.Sound.SuccessFilePath ≠ "" then config.Sound.SuccessFilePath
           else config.Sound.FilePath) ∧
      isValidSoundFile env fs
          (if config.Sound.SuccessFilePath ≠ "" then config.Sound.SuccessFilePath
           else config.Sound.FilePath) = true) ∧
    (isFailureSoundEnabled env fs config = true →
      FailureSoundFile fs config response request =
        .serveFile response
          (if config.Sound.FailureFilePath ≠ "" then config.Sound.FailureFilePath
           else config.Sound.FilePath) ∧
      isValidSoundFile env fs
          (if config.Sound.FailureFilePath ≠ "" then config.Sound.FailureFilePath
           else config.Sound.FilePath) = true) := by
  have key : ∀ p : String, isValidSoundFile env fs p = true →
      p ≠ "" ∧ osIsNotExist (statErr (osStat fs p)) = false := by
    intro p hp
    obtain ⟨hne, hreg, _⟩ := (isValidSoundFile_iff env fs p).1 hp
    exact ⟨hne, by simp [osStat, hreg, statErr, osIsNotExist]⟩
  constructor
  · intro h
    have hv : isValidSoundFile env fs
        (if config.Sound.SuccessFilePath ≠ "" then config.Sound.SuccessFilePath
         else config.Sound.FilePath) = true := by
      unfold isSuccessSoundEnabled at h
      split at h <;> simp_all
    obtain ⟨hne, hex⟩ := key _ hv
    refine ⟨?_, hv⟩
    unfold SuccessSoundFile
    simp only [hm, ne_eq, not_true_eq_false, if_false]
    rw [if_neg hne, hex]
    simp
  · intro h
    have hv : isValidSoundFile env fs
        (if config.Sound.FailureFilePath ≠ "" then config.Sound.FailureFilePath
         else config.Sound.FilePath) = true := by
      unfold isFailureSoundEnabled at h
      split at h <;> simp_all
    obtain ⟨hne, hex⟩ := key _ hv
    refine ⟨?_, hv⟩
    unfold FailureSoundFile
    simp only [hm, ne_eq, not_true_eq_false, if_false]
    rw [if_neg hne, hex]
    simp

theorem sound_status_retrieval_consistent_witness :
    SuccessSoundFile exampleFS exampleConfig ResponseWriter.fresh (requestWith "GET" "" "") =
      .serveFile ResponseWriter.fresh "/tmp/a.mp3" ∧
    FailureSoundFile exampleFS exampleConfig ResponseWriter.fresh (requestWith "GET" "" "") =
      .serveFile ResponseWriter.fresh "/tmp/a.mp3" :=
  have h := sound_status_retrieval_consistent exampleEnv exampleFS exampleConfig
    ResponseWriter.fresh (requestWith "GET" "" "") rfl
  ⟨(h.1 (by decide)).1, (h.2 (by decide)).1⟩

theorem iterEnds_nil (step : Nat → List Nat) (fuel : Nat) : iterEnds step fuel [] = [] := by
  induction fuel with
  | zero => rfl
  | succ f ih => simp [iterEnds, ih]

theorem mem_iterEnds_charClass (text : List Char) (ranges : List (Char × Char))
    (fuel k j : Nat) :
    j ∈ iterEnds (Regexp.ends text (.charClass ranges)) fuel [k] ↔
      k < j ∧ j ≤ k + fuel ∧
      ∀ m, k ≤ m → m < j → ∃ c, text[m]? = some c ∧ inClass ranges c = true := by
  induction fuel generalizing k with
  | zero =>
    simp only [iterEnds, List.not_mem_nil, false_iff]
    omega
  | succ f ih =>
    have hflat : [k].flatMap (Regexp.ends text (.charClass ranges)) =
        Regexp.ends text (.charClass ranges) k := by simp
    rw [iterEnds, hflat]
    cases hget : text[k]? with
    | none =>
      have hnil : Regexp.ends text (.charClass ranges) k = [] := by simp [Regexp.ends, hget]
      rw [hnil, iterEnds_nil]
      simp only [List.append_nil, List.not_mem_nil, false_iff]
      rintro ⟨hkj, _, hall⟩
      obtain ⟨c, hc, _⟩ := hall k (Nat.le_refl k) hkj
      rw [hget] at hc
      cases hc
    | some c =>
      by_cases hP : inClass ranges c = true
      · have hone : Regexp.ends text (.charClass ranges) k = [k + 1] := by
          simp [Regexp.ends, hget, hP]
        rw [hone, List.mem_append, List.mem_singleton, ih (k + 1)]
        constructor
        · rintro (rfl | ⟨h1, h2, h3⟩)
          · refine ⟨by omega, by omega, fun m hm1 hm2 => ?_⟩
            have : m = k := by omega
            subst this
            exact ⟨c, hget, hP⟩
          · refine ⟨by omega, by omega, fun m hm1 hm2 => ?_⟩
            by_cases hmk : m = k
            · subst hmk
              exact ⟨c, hget, hP⟩
            · exact h3 m (by omega) hm2
        · rintro ⟨h1, h2, h3⟩
          by_cases hj : j = k + 1
          · exact Or.inl hj
          · exact Or.inr ⟨by omega, by omega, fun m hm1 hm2 => h3 m (by omega) hm2⟩
      · have hnil : Regexp.ends text (.charClass ranges) k = [] := by
          simp [Regexp.ends, hget, hP]
        rw [hnil, iterEnds_nil]
        simp only [List.append_nil, List.not_mem_nil, false_iff]
        rintro ⟨hkj, _, hall⟩
        obtain ⟨d, hd, hPd⟩ := hall k (Nat.le_refl k) hkj
        rw [hget] at hd
        cases hd
        exact hP hPd

theorem validRegex_ends (text : List Char) (i : Nat) :
    validRegex.ends text i ≠ [] ↔
      i = 0 ∧ text ≠ [] ∧ ∀ c ∈ text,
        inClass [('A', 'Z'), ('a', 'z'), ('0', '9'), ('_', '_'), ('-', '-')] c = true := by
  by_cases hi : i = 0
  · subst hi
    have hmem := mem_iterEnds_charClass text
      [('A', 'Z'), ('a', 'z'), ('0', '9'), ('_', '_'), ('-', '-')] (text.length + 1) 0 text.length
    have hne : validRegex.ends text 0 ≠ [] ↔
        text.length ∈ iterEnds (Regexp.ends text
          (.charClass [('A', 'Z'), ('a', 'z'), ('0', '9'), ('_', '_'), ('-', '-')]))
          (text.length + 1) [0] := by
      simp only [validRegex, Regexp.ends, if_true, List.flatMap_singleton, ne_eq,
        List.flatMap_eq_nil_iff, not_forall]
      constructor
      · rintro ⟨x, hx, hx2⟩
        by_cases hxl : x = text.length
        · rw [hxl] at hx; exact hx
        · simp [hxl] at hx2
      · intro h
        exact ⟨text.length, h, by simp⟩
    rw [hne, hmem]
    constructor
    · rintro ⟨h1, _, h3⟩
      refine ⟨rfl, fun h => by simp [h] at h1, fun c hc => ?_⟩
      obtain ⟨m, hm, hcm⟩ := List.getElem_of_mem hc
      obtain ⟨d, hd, hPd⟩ := h3 m (Nat.zero_le m) hm
      rw [List.getElem?_eq_getElem hm] at hd
      cases hd
      rw [← hcm]
      exact hPd
    · rintro ⟨_, h2, h3⟩
      refine ⟨List.length_pos.2 h2, by omega, fun m _ hm => ?_⟩
      refine ⟨text[m], ?_, h3 _ (List.getElem_mem hm)⟩
      rw [List.getElem?_eq_getElem hm]
  · simp [validRegex, Regexp.ends, hi]

theorem char_range_single (a c : Char) : (a ≤ c ∧ c ≤ a) ↔ c = a :=
  ⟨fun h => le_antisymm h.2 h.1, fun h => h ▸ ⟨le_refl _, le_refl _⟩⟩

theorem inClass_topic_iff (c : Char) :
    inClass [('A', 'Z'), ('a', 'z'), ('0', '9'), ('_', '_'), ('-', '-')] c = true ↔
      isTopicChar c := by
  unfold inClass isTopicChar
  simp only [List.any_cons, List.any_nil, Bool.or_false, Bool.or_eq_true,
    decide_eq_true_eq, char_range_single]
  tauto

/-- C3: for every string, `isValidNTFYTopic` returns true exactly when the
string is non-empty and every character is an ASCII letter, an ASCII digit,
`_` or `-` (the pattern must match the whole string). -/
theorem isValidNTFYTopic_spec :
    (∀ t : String, isValidNTFYTopic t = true ↔ t ≠ "" ∧ ∀ c ∈ t.toList, isTopicChar c) ∧
    isValidNTFYTopic "goconvey-notifications" = true ∧
    isValidNTFYTopic "" = false ∧
    isValidNTFYTopic "topic\n" = false ∧
    isValidNTFYTopic "my topic" = false ∧
    isValidNTFYTopic "a/b" = false ∧
    isValidNTFYTopic "caf\u00e9" = false := by
  refine ⟨fun t => ?_, by decide, by decide, by decide, by decide, by decide, by decide⟩
  have hdata : t ≠ "" ↔ t.data ≠ [] := by
    constructor
    · intro h hd
      apply h
      cases t
      simp_all
    · intro h ht
      apply h
      rw [ht]
  unfold isValidNTFYTopic
  by_cases ht : t = ""
  · simp [ht]
  · rw [if_neg ht]
    simp only [Regexp.MatchString, List.any_eq_true, List.mem_range, Bool.not_eq_true_eq_eq_false,
      Bool.not_eq_true', String.toList]
    constructor
    · rintro ⟨i, _, hi⟩
      have hne : validRegex.ends t.data i ≠ [] := by
        intro h
        rw [h] at hi
        simp at hi
      obtain ⟨_, h2, h3⟩ := (validRegex_ends t.data i).1 hne
      exact ⟨ht, fun c hc => (inClass_topic_iff c).1 (h3 c hc)⟩
    · rintro ⟨_, h3⟩
      have hne : validRegex.ends t.data 0 ≠ [] :=
        (validRegex_ends t.data 0).2
          ⟨rfl, hdata.1 ht, fun c hc => (inClass_topic_iff c).2 (h3 c hc)⟩
      refine ⟨0, by omega, ?_⟩
      cases hv : validRegex.ends t.data 0 with
      | nil => exact absurd hv hne
      | cons a l => rfl

/-! ### Long-poll timeout -/

/-- C6: the timeout used by `LongPollStatus` is `n` milliseconds when the
`timeout` query value parses (`strconv.Atoi`) as an integer `n` with
`0 ≤ n ≤ 180000`, and 60000 otherwise: when it does not parse (absent,
non-numeric) or parses to a negative value or one above 180000. It always
lies between 0 and 180000. -/
theorem longPollTimeout_spec (request : Request) :
    (0 ≤ longPollTimeout request ∧ longPollTimeout request ≤ 180000) ∧
    (∀ n : Int, Atoi (valuesGet request.query "timeout") = .ok n → 0 ≤ n → n ≤ 180000 →
      longPollTimeout request = n) ∧
    ((∀ n : Int, Atoi (valuesGet request.query "timeout") = .ok n → n < 0 ∨ 180000 < n) →
      longPollTimeout request = 60000) ∧
    (request.query "timeout" = [] → longPollTimeout request = 60000) ∧
    (request.query "timeout" = ["abc"] → longPollTimeout request = 60000) ∧
    (request.query "timeout" = ["-5"] → longPollTimeout request = 60000) ∧
    (request.query "timeout" = ["200000"] → longPollTimeout request = 60000) ∧
    (request.query "timeout" = ["180000"] → longPollTimeout request = 180000) ∧
    (request.query "timeout" = ["100"] → longPollTimeout request = 100) := by
  refine ⟨?_, ?_, ?_, ?_, ?_, ?_, ?_, ?_, ?_⟩
  · unfold longPollTimeout
    cases Atoi (valuesGet request.query "timeout") with
    | error e => simp
    | ok n =>
      simp only
      split <;> omega
  · intro n hn h0 h1
    unfold longPollTimeout
    rw [hn]
    simp only
    rw [if_neg (by omega)]
  · intro h
    unfold longPollTimeout
    cases hv : Atoi (valuesGet request.query "timeout") with
    | error e => rfl
    | ok n =>
      simp only
      rw [if_pos (by have := h n hv; omega)]
  · intro h
    simp [longPollTimeout, valuesGet, h, Atoi]
  · intro h
    have : Atoi "abc" = .error "invalid syntax" := by rfl
    simp [longPollTimeout, valuesGet, h, this]
  · intro h
    have : Atoi "-5" = .ok (-5) := by rfl
    simp [longPollTimeout, valuesGet, h, this]
  · intro h
    have : Atoi "200000" = .ok 200000 := by rfl
    simp [longPollTimeout, valuesGet, h, this]
  · intro h
    have : Atoi "180000" = .ok 180000 := by rfl
    simp [longPollTimeout, valuesGet, h, this]
  · intro h
    have : Atoi "100" = .ok 100 := by rfl
    simp [longPollTimeout, valuesGet, h, this]

theorem longPollTimeout_spec_witness :
    longPollTimeout (requestWith "GET" "timeout" "100") = 100 ∧
    longPollTimeout (requestWith "GET" "timeout" "-5") = 60000 ∧
    longPollTimeout (requestWith "GET" "timeout" "200000") = 60000 ∧
    longPollTimeout (requestWith "GET" "other" "1") = 60000 :=
  ⟨(longPollTimeout_spec (requestWith "GET" "timeout" "100")).2.1 100 (by rfl)
      (by decide) (by decide),
   (longPollTimeout_spec (requestWith "GET" "timeout" "-5")).2.2.2.2.2.1 rfl,
   (longPollTimeout_spec (requestWith "GET" "timeout" "200000")).2.2.2.2.2.2.1 rfl,
   (longPollTimeout_spec (requestWith "GET" "other" "1")).2.2.2.1 (by decide)⟩

/-! ### Evaluations of the embedded library functions -/

/-- Values of `filepath.Ext`, `strings.ToLower`, `strconv.Atoi` and the regular
expression matcher on concrete inputs. -/
theorem library_examples :
    Ext "/tmp/a.mp3" = ".mp3" ∧
    Ext "/tmp/archive.tar.GZ" = ".GZ" ∧
    Ext "/tmp.d/readme" = "" ∧
    Ext "/tmp/trailing." = "." ∧
    Ext "" = "" ∧
    ToLower exampleEnv ".Mp3" = ".mp3" ∧
    Atoi "+7" = .ok 7 ∧
    Atoi "-" = .error "invalid syntax" ∧
    Atoi "" = .error "invalid syntax" ∧
    Atoi "12a" = .error "invalid syntax" ∧
    Atoi "9223372036854775808" = .error "value out of range" ∧
    (Regexp.plus (.charClass [('a', 'z')])).MatchString "12abc34" = true ∧
    (Regexp.concat .beginText (.plus (.charClass [('a', 'z')]))).MatchString "12abc34" = false ∧
    (Regexp.concat (.plus (.charClass [('a', 'z')])) .endText).MatchString "12abc" = true := by
  refine ⟨by decide, by decide, by decide, by decide, by decide, by decide, rfl, rfl, rfl, rfl,
    rfl, by decide, by decide, by decide⟩

/-- Values of `isValidSoundFile` on concrete inputs: the extension is compared
case-insensitively, a directory and a missing file are rejected. -/
theorem isValidSoundFile_examples :
    isValidSoundFile exampleEnv exampleFS "/tmp/a.mp3" = true ∧
    isValidSoundFile exampleEnv exampleFS "/tmp" = false ∧
    isValidSoundFile exampleEnv exampleFS "/tmp/b.mp3" = false ∧
    isValidSoundFile exampleEnv exampleFS "" = false ∧
    isValidSoundFile exampleEnv (fun _ => .regular) "/sounds/Ding.WAV" = true ∧
    isValidSoundFile exampleEnv (fun _ => .regular) "/sounds/ding.flac" = false ∧
    isValidSoundFile exampleEnv (fun _ => .regular) "/sounds.ogg/ding" = false := by
  decide

end Goconvey
